import Mathlib

/-!
Verification of the DNS zone-transfer (AXFR) result parser and graph merger
of `kis/collectors/os/modules/dns/dnsaxfr.py` (class `CollectorClass`,
method `verify_results`).

The embedding models:
  * the compiled regular expression
    `^(?P<hostname>.+?)\.\s+\d+\s+IN\s+(?P<type>[A-Z]+)\s+(\d+\s)?(?P<content>.+)$`
    (flag IGNORECASE, used via `re.match`) as a backtracking matcher over
    `List Char`, with Python semantics for `.` (any char except newline),
    `\s`, `\d`, greedy `+`, non-greedy `+?`, the optional group `(...)?`
    and the `$` end anchor (end of string, or just before a final newline);
  * Python's `str.strip` with and without an argument;
  * the per-line processing of `verify_results` as a state transformer on a
    graph of host names, addresses and edges, plus a diagnostic log and a
    log of invocations of the free-text domain extraction collaborator.

Collaborators that live outside the analysed module (the store operations
`add_host_name` / `add_host` / mapping creation, the record-type
enumeration `DnsResourceRecordType`, and `DomainUtils.extract_domains`)
are modelled from the specification's interface contracts; validity
predicates and the extractor are parameters (`Env`).
-/

namespace DnsAxfr

/-- Python `\s` on ASCII: space, tab, newline, carriage return, vertical
tab, form feed. -/
def isPySpace (c : Char) : Bool :=
  c = ' ' || c = '\t' || c = '\n' || c = '\r' || c = '\x0b' || c = '\x0c'

/-- Python `\d` (ASCII): decimal digit. -/
def isDigitCh (c : Char) : Bool :=
  '0' ≤ c && c ≤ '9'

/-- `[A-Z]` under IGNORECASE: an ASCII letter of either case. -/
def isAlphaCh (c : Char) : Bool :=
  ('A' ≤ c && c ≤ 'Z') || ('a' ≤ c && c ≤ 'z')

/-- The `$` anchor without MULTILINE: end of input, or just before one
final newline. -/
def endOk (l : List Char) : Bool :=
  l = [] || l = ['\n']

/-- Greedy backtracking for `X+` followed by a continuation: try the run
lengths from the maximal run of `p`-characters down to 1. `go k l i`
tries length `i` first, then shorter ones. -/
def plusThenGo (k : List Char → Option α) (l : List Char) : Nat → Option α
  | 0 => none
  | i + 1 =>
    match k (l.drop (i + 1)) with
    | some a => some a
    | none => plusThenGo k l i

/-- Match `p+` (greedy, with backtracking) at the front of `l`, then run
the continuation `k` on the rest. -/
def plusThen (p : Char → Bool) (k : List Char → Option α) (l : List Char) :
    Option α :=
  plusThenGo k l (l.takeWhile p).length

/-- As `plusThenGo`, but the continuation also receives the consumed
prefix (used to capture the record-type group). -/
def plusThenCapGo (k : List Char → List Char → Option α) (l : List Char) :
    Nat → Option α
  | 0 => none
  | i + 1 =>
    match k (l.take (i + 1)) (l.drop (i + 1)) with
    | some a => some a
    | none => plusThenCapGo k l i

/-- Match `p+` (greedy) at the front of `l`, capturing the matched prefix. -/
def plusThenCap (p : Char → Bool) (k : List Char → List Char → Option α)
    (l : List Char) : Option α :=
  plusThenCapGo k l (l.takeWhile p).length

/-- Match `(?P<content>.+)$`: the maximal run of non-newline characters,
which must be non-empty and leave only the `$` anchor. Backtracking to a
shorter run can never help, because the remainder would then start with a
non-newline character, which `$` rejects. -/
def matchContent (l : List Char) : Option (List Char) :=
  let c := l.takeWhile (fun ch => ch ≠ '\n')
  if c = [] then none
  else if endOk (l.drop c.length) then some c else none

/-- Backtracking over the length of `\d+` inside the optional priority
group `(\d+\s)`: try `i` digits (longest first), then one whitespace
character, then the content group. -/
def tryPrio (l : List Char) : Nat → Option (List Char)
  | 0 => none
  | i + 1 =>
    match l.drop (i + 1) with
    | c :: rest =>
      if isPySpace c then
        match matchContent rest with
        | some cont => some cont
        | none => tryPrio l i
      else tryPrio l i
    | [] => tryPrio l i

/-- Match `(\d+\s)?(?P<content>.+)$`: first try with the optional priority
group (greedy `?`), falling back to matching the content group directly. -/
def matchPrioContent (l : List Char) : Option (List Char) :=
  match tryPrio l (l.takeWhile isDigitCh).length with
  | some c => some c
  | none => matchContent l

/-- Match `\s+(\d+\s)?(?P<content>.+)$` (the tail after the record-type
token). -/
def matchAfterType (l : List Char) : Option (List Char) :=
  plusThen isPySpace matchPrioContent l

/-- Match `\s+\d+\s+IN\s+(?P<type>[A-Z]+)\s+(\d+\s)?(?P<content>.+)$`
against the characters following the owner name's literal dot; `IN` is
matched case-insensitively. Returns the raw type and content groups. -/
def afterOwnerDot (rest : List Char) : Option (List Char × List Char) :=
  plusThen isPySpace (fun r1 =>
    plusThen isDigitCh (fun r2 =>
      plusThen isPySpace (fun r3 =>
        match r3 with
        | i :: n :: r4 =>
          if (i = 'I' || i = 'i') && (n = 'N' || n = 'n') then
            plusThen isPySpace (fun r5 =>
              plusThenCap isAlphaCh (fun ty r6 =>
                (matchAfterType r6).map (fun c => (ty, c))) r5) r4
          else none
        | _ => none) r2) r1) rest

/-- Non-greedy `^(?P<hostname>.+?)\.` followed by the rest of the pattern:
scan left to right; at each literal `.` with a non-empty owner candidate
accumulated so far, try the continuation; on failure extend the owner by
one more (non-newline) character. `ownerRev` holds the candidate reversed
and, by construction, newline-free. -/
def ownerGo (f : List Char → List Char → Option α) (ownerRev : List Char) :
    List Char → Option α
  | [] => none
  | c :: rest =>
    match (if c = '.' && ownerRev ≠ [] then f ownerRev.reverse rest
           else none) with
    | some a => some a
    | none => if c = '\n' then none else ownerGo f (c :: ownerRev) rest

/-- The whole compiled pattern `self._re_entry`, applied with `re.match`
(anchored at the start). Returns the raw `hostname`, `type` and `content`
groups. -/
def reEntryMatch (line : String) : Option (List Char × List Char × List Char) :=
  ownerGo (fun owner rest =>
    (afterOwnerDot rest).map (fun tc => (owner, tc.1, tc.2))) [] line.toList

/-- Python `str.strip(chars)` / `str.strip()`: drop characters satisfying
`p` from both ends. -/
def pyStrip (p : Char → Bool) (s : String) : String :=
  String.mk (((s.toList.dropWhile p).reverse.dropWhile p).reverse)

/-- The character set of Python `strip(". ")`: a dot or a space. -/
def isDotSpace (c : Char) : Bool :=
  c = '.' || c = ' '

/-- Python `str.lower()` on the ASCII letters of the type group. -/
def toLowerStr (s : String) : String :=
  String.mk (s.toList.map Char.toLower)

/-- The parsed values `verify_results` computes from a matched line:
`host_name_str = match.group("hostname").strip(". ")`,
`record_type_str = match.group("type").strip().lower()`,
`content = match.group("content").strip().strip(". ")`. -/
structure DnsRecord where
  ownerName : String
  typeStr : String
  content : String
  deriving DecidableEq

/-- Parse one output line: the regex match plus the strip/lower
post-processing of the three groups. -/
def parseEntry (line : String) : Option DnsRecord :=
  (reEntryMatch line).map (fun g =>
    { ownerName := pyStrip isDotSpace (String.mk g.1)
      typeStr := toLowerStr (pyStrip isPySpace (String.mk g.2.1))
      content := pyStrip isDotSpace (pyStrip isPySpace (String.mk g.2.2)) })

/-- Modelled from the spec: the supported record-type enumeration
`DnsResourceRecordType` of `database.model` (not under src/); the spec's
classification names A, AAAA, CNAME, NS, MX, TXT and SOA as recognized
types, indexed by lower-case member name. -/
inductive DnsResourceRecordType where
  | a | aaaa | cname | ns | mx | txt | soa
  deriving DecidableEq

/-- Modelled from the spec: `DnsResourceRecordType[record_type_str]`, the
enum lookup by (lower-cased) member name; an unknown token raises
`KeyError`, modelled as `none`. -/
def lookupRecordType (s : String) : Option DnsResourceRecordType :=
  if s = "a" then some .a
  else if s = "aaaa" then some .aaaa
  else if s = "cname" then some .cname
  else if s = "ns" then some .ns
  else if s = "mx" then some .mx
  else if s = "txt" then some .txt
  else if s = "soa" then some .soa
  else none

/-- Modelled from the spec: the collaborators consumed by the merger —
the host-name validity test behind `getOrCreateHostName` (none when the
name is invalid or out of scope), the address-literal validity test behind
`getOrCreateAddress`, and `extractDomainSubstrings`. They are parameters:
every theorem holds for an arbitrary environment. -/
structure Env where
  validHostName : String → Bool
  validAddress : String → Bool
  extractDomains : String → List String

/-- The graph fragment this component mutates: host-name nodes, address
nodes, host-to-address edges (with their A/AAAA mapping type) and directed
CNAME alias edges. Identity-keyed sets give the spec's create-or-fetch
(merge, not insert) semantics. -/
structure Graph where
  hostNames : Finset String
  addresses : Finset String
  hostAddrEdges : Finset (String × String × DnsResourceRecordType)
  aliasEdges : Finset (String × String)
  deriving DecidableEq

/-- The diagnostics `verify_results` can emit for a line: the logged
`KeyError` for an unknown type token, `"ignoring host name due to invalid
domain in line: ..."`, and `"ignoring host due to invalid IP address in
line: ..."`. -/
inductive Diag where
  | keyError (typeStr : String)
  | invalidDomain (line : String)
  | invalidIP (line : String)
  deriving DecidableEq

/-- Processing state: the graph, the diagnostic log, and a log of the
contents on which `self._domain_utils.extract_domains` was invoked (to
make "the extraction path runs" observable). -/
structure ProcState where
  graph : Graph
  diags : List Diag
  extractLog : List String
  deriving DecidableEq

/-- The loop body of `for item in self._domain_utils.extract_domains(content)`:
each extracted candidate is handed to `add_host_name`; an invalid one only
logs. -/
def extractFold (env : Env) (line : String) :
    ProcState → List String → ProcState
  | s, [] => s
  | s, item :: rest =>
    extractFold env line
      (if env.validHostName item then
        { s with graph :=
            { s.graph with hostNames := insert item s.graph.hostNames } }
      else { s with diags := s.diags ++ [Diag.invalidDomain line] })
      rest

/-- The free-text extraction branch: invoke the extractor on `content`
(recorded in `extractLog`) and fold over its results. -/
def extractStep (env : Env) (line content : String) (s : ProcState) :
    ProcState :=
  extractFold env line
    { s with extractLog := s.extractLog ++ [content] }
    (env.extractDomains content)

/-- The A/AAAA branch: `add_host` validates the address literal (invalid
→ debug diagnostic only), then `add_host_host_name_mapping` records the
edge with the record's own mapping type. -/
def addressStep (env : Env) (line : String) (rt : DnsResourceRecordType)
    (owner content : String) (s : ProcState) : ProcState :=
  if env.validAddress content then
    { s with graph :=
        { s.graph with
            addresses := insert content s.graph.addresses
            hostAddrEdges := insert (owner, content, rt) s.graph.hostAddrEdges } }
  else { s with diags := s.diags ++ [Diag.invalidIP line] }

/-- The CNAME branch: `add_host_name` on the target (invalid → debug
diagnostic only), then `add_host_name_host_name_mapping` records the
directed alias edge. -/
def cnameStep (env : Env) (line owner content : String) (s : ProcState) :
    ProcState :=
  if env.validHostName content then
    { s with graph :=
        { s.graph with
            hostNames := insert content s.graph.hostNames
            aliasEdges := insert (owner, content) s.graph.aliasEdges } }
  else { s with diags := s.diags ++ [Diag.invalidDomain line] }

/-- One iteration of the line loop of `verify_results`: regex match (no
match → nothing at all), enum lookup (`KeyError` caught and logged), owner
`add_host_name` (invalid → debug diagnostic only), then the sequential
A/AAAA conditional followed by the CNAME-or-extraction conditional, whose
`else` is attached to `record_type == cname and content`. -/
def processLine (env : Env) (s : ProcState) (line : String) : ProcState :=
  match parseEntry line with
  | none => s
  | some r =>
    match lookupRecordType r.typeStr with
    | none => { s with diags := s.diags ++ [Diag.keyError r.typeStr] }
    | some rt =>
      if env.validHostName r.ownerName then
        let s1 : ProcState :=
          { s with graph :=
              { s.graph with hostNames := insert r.ownerName s.graph.hostNames } }
        let s2 : ProcState :=
          if (rt = DnsResourceRecordType.a ∨ rt = DnsResourceRecordType.aaaa)
              ∧ r.content ≠ "" then
            addressStep env line rt r.ownerName r.content s1
          else s1
        if rt = DnsResourceRecordType.cname ∧ r.content ≠ "" then
          cnameStep env line r.ownerName r.content s2
        else
          extractStep env line r.content s2
      else { s with diags := s.diags ++ [Diag.invalidDomain line] }

/-- The whole of `verify_results` over `command.stdout_output`. -/
def processLines (env : Env) (s : ProcState) (ls : List String) : ProcState :=
  ls.foldl (processLine env) s

/-- The extracted candidates that `add_host_name` accepts. -/
def extractedSet (env : Env) (content : String) : Finset String :=
  ((env.extractDomains content).filter (fun i => env.validHostName i)).toFinset

/-- The host-name nodes one line contributes (its graph delta). -/
def lineHN (env : Env) (line : String) : Finset String :=
  match parseEntry line with
  | none => ∅
  | some r =>
    match lookupRecordType r.typeStr with
    | none => ∅
    | some rt =>
      if env.validHostName r.ownerName then
        insert r.ownerName
          (if rt = DnsResourceRecordType.cname ∧ r.content ≠ "" then
            (if env.validHostName r.content then {r.content} else ∅)
          else extractedSet env r.content)
      else ∅

/-- The address nodes one line contributes. -/
def lineAddr (env : Env) (line : String) : Finset String :=
  match parseEntry line with
  | none => ∅
  | some r =>
    match lookupRecordType r.typeStr with
    | none => ∅
    | some rt =>
      if env.validHostName r.ownerName then
        if (rt = DnsResourceRecordType.a ∨ rt = DnsResourceRecordType.aaaa)
            ∧ r.content ≠ "" then
          if env.validAddress r.content then {r.content} else ∅
        else ∅
      else ∅

/-- The host-to-address edges one line contributes. -/
def lineHAE (env : Env) (line : String) :
    Finset (String × String × DnsResourceRecordType) :=
  match parseEntry line with
  | none => ∅
  | some r =>
    match lookupRecordType r.typeStr with
    | none => ∅
    | some rt =>
      if env.validHostName r.ownerName then
        if (rt = DnsResourceRecordType.a ∨ rt = DnsResourceRecordType.aaaa)
            ∧ r.content ≠ "" then
          if env.validAddress r.content then {(r.ownerName, r.content, rt)}
          else ∅
        else ∅
      else ∅

/-- The alias edges one line contributes. -/
def lineAlias (env : Env) (line : String) : Finset (String × String) :=
  match parseEntry line with
  | none => ∅
  | some r =>
    match lookupRecordType r.typeStr with
    | none => ∅
    | some rt =>
      if env.validHostName r.ownerName then
        if rt = DnsResourceRecordType.cname ∧ r.content ≠ "" then
          if env.validHostName r.content then {(r.ownerName, r.content)}
          else ∅
        else ∅
      else ∅

/-- The union of the per-line contributions of a whole blob. -/
def blobOf [DecidableEq α] (f : String → Finset α) (ls : List String) :
    Finset α :=
  ls.foldr (fun l acc => f l ∪ acc) ∅

/-- The empty graph and the empty processing state. -/
def emptyGraph : Graph := ⟨∅, ∅, ∅, ∅⟩

def emptyState : ProcState := ⟨emptyGraph, [], []⟩

/-- An environment that accepts every host name and address and extracts
nothing. -/
def envAll : Env := ⟨fun _ => true, fun _ => true, fun _ => []⟩

/-- An environment whose extractor finds a domain inside the A-record
content `10.0.0.5`. -/
def envExtractA : Env :=
  ⟨fun _ => true, fun _ => true,
   fun c => if c = "10.0.0.5" then ["ex.example.com"] else []⟩

/-- An environment whose extractor returns a candidate even for empty
content. -/
def envExtractAlways : Env :=
  ⟨fun _ => true, fun _ => true, fun _ => ["x.example.com"]⟩

/-- An environment that rejects every owner name. -/
def envNoOwner : Env := ⟨fun _ => false, fun _ => true, fun _ => []⟩

/-- An environment that rejects every address literal. -/
def envNoAddr : Env := ⟨fun _ => true, fun _ => false, fun _ => []⟩

theorem extractFold_hostNames (env : Env) (line : String) :
    ∀ (items : List String) (s : ProcState),
      (extractFold env line s items).graph.hostNames =
        s.graph.hostNames ∪ (items.filter (fun i => env.validHostName i)).toFinset
  | [], s => by simp [extractFold]
  | item :: rest, s => by
    by_cases h : env.validHostName item <;>
      simp [extractFold, h, extractFold_hostNames env line rest,
        List.filter_cons]

theorem extractFold_addresses (env : Env) (line : String) :
    ∀ (items : List String) (s : ProcState),
      (extractFold env line s items).graph.addresses = s.graph.addresses
  | [], s => by simp [extractFold]
  | item :: rest, s => by
    by_cases h : env.validHostName item <;>
      simp [extractFold, h, extractFold_addresses env line rest]

theorem extractFold_hostAddrEdges (env : Env) (line : String) :
    ∀ (items : List String) (s : ProcState),
      (extractFold env line s items).graph.hostAddrEdges = s.graph.hostAddrEdges
  | [], s => by simp [extractFold]
  | item :: rest, s => by
    by_cases h : env.validHostName item <;>
      simp [extractFold, h, extractFold_hostAddrEdges env line rest]

theorem extractFold_aliasEdges (env : Env) (line : String) :
    ∀ (items : List String) (s : ProcState),
      (extractFold env line s items).graph.aliasEdges = s.graph.aliasEdges
  | [], s => by simp [extractFold]
  | item :: rest, s => by
    by_cases h : env.validHostName item <;>
      simp [extractFold, h, extractFold_aliasEdges env line rest]

theorem extractFold_extractLog (env : Env) (line : String) :
    ∀ (items : List String) (s : ProcState),
      (extractFold env line s items).extractLog = s.extractLog
  | [], s => by simp [extractFold]
  | item :: rest, s => by
    by_cases h : env.validHostName item <;>
      simp [extractFold, h, extractFold_extractLog env line rest]

theorem extractFold_diags_mono (env : Env) (line : String) :
    ∀ (items : List String) (s : ProcState) (d : Diag), d ∈ s.diags →
      d ∈ (extractFold env line s items).diags
  | [], s, d, hd => by simpa [extractFold] using hd
  | item :: rest, s, d, hd => by
    by_cases h : env.validHostName item <;>
      · simp only [extractFold, h]
        refine extractFold_diags_mono env line rest _ d ?_
        simp [hd]

theorem addressStep_hostNames (env : Env) (line : String)
    (rt : DnsResourceRecordType) (owner content : String) (s : ProcState) :
    (addressStep env line rt owner content s).graph.hostNames =
      s.graph.hostNames := by
  unfold addressStep; by_cases h : env.validAddress content <;> simp [h]

theorem addressStep_aliasEdges (env : Env) (line : String)
    (rt : DnsResourceRecordType) (owner content : String) (s : ProcState) :
    (addressStep env line rt owner content s).graph.aliasEdges =
      s.graph.aliasEdges := by
  unfold addressStep; by_cases h : env.validAddress content <;> simp [h]

theorem addressStep_extractLog (env : Env) (line : String)
    (rt : DnsResourceRecordType) (owner content : String) (s : ProcState) :
    (addressStep env line rt owner content s).extractLog = s.extractLog := by
  unfold addressStep; by_cases h : env.validAddress content <;> simp [h]

theorem addressStep_addresses (env : Env) (line : String)
    (rt : DnsResourceRecordType) (owner content : String) (s : ProcState) :
    (addressStep env line rt owner content s).graph.addresses =
      (if env.validAddress content then insert content s.graph.addresses
       else s.graph.addresses) := by
  unfold addressStep; by_cases h : env.validAddress content <;> simp [h]

theorem addressStep_hostAddrEdges (env : Env) (line : String)
    (rt : DnsResourceRecordType) (owner content : String) (s : ProcState) :
    (addressStep env line rt owner content s).graph.hostAddrEdges =
      (if env.validAddress content then
        insert (owner, content, rt) s.graph.hostAddrEdges
       else s.graph.hostAddrEdges) := by
  unfold addressStep; by_cases h : env.validAddress content <;> simp [h]

theorem processLine_hostNames (env : Env) (s : ProcState) (line : String) :
    (processLine env s line).graph.hostNames =
      s.graph.hostNames ∪ lineHN env line := by
  unfold processLine lineHN
  cases hp : parseEntry line with
  | none => simp
  | some r =>
    cases hl : lookupRecordType r.typeStr with
    | none => simp [hl]
    | some rt =>
      simp only [hl]
      by_cases ho : env.validHostName r.ownerName
      · by_cases hcn : rt = DnsResourceRecordType.cname ∧ r.content ≠ ""
        · obtain ⟨hrt, hc⟩ := hcn
          subst hrt
          by_cases ht : env.validHostName r.content <;>
            (simp [ho, hc, ht, cnameStep, addressStep_hostNames] <;>
              (ext a <;> simp <;> tauto))
        · by_cases hA : (rt = DnsResourceRecordType.a ∨
              rt = DnsResourceRecordType.aaaa) ∧ r.content ≠ ""
          · obtain ⟨hd, hc⟩ := hA
            rcases hd with h | h <;> subst h <;>
              (simp [ho, hc, extractStep, extractFold_hostNames,
                addressStep_hostNames, extractedSet] <;>
                (ext a <;> simp <;> tauto))
          · simp [ho, hcn, hA, extractStep, extractFold_hostNames,
              extractedSet] <;> (ext a <;> simp <;> tauto)
      · simp [ho]

theorem processLine_addresses (env : Env) (s : ProcState) (line : String) :
    (processLine env s line).graph.addresses =
      s.graph.addresses ∪ lineAddr env line := by
  unfold processLine lineAddr
  cases hp : parseEntry line with
  | none => simp
  | some r =>
    cases hl : lookupRecordType r.typeStr with
    | none => simp [hl]
    | some rt =>
      simp only [hl]
      by_cases ho : env.validHostName r.ownerName
      · by_cases hcn : rt = DnsResourceRecordType.cname ∧ r.content ≠ ""
        · obtain ⟨hrt, hc⟩ := hcn
          subst hrt
          by_cases ht : env.validHostName r.content <;>
            simp [ho, hc, ht, cnameStep, addressStep_addresses]
        · by_cases hA : (rt = DnsResourceRecordType.a ∨
              rt = DnsResourceRecordType.aaaa) ∧ r.content ≠ ""
          · obtain ⟨hd, hc⟩ := hA
            rcases hd with h | h <;> subst h <;>
              by_cases ha : env.validAddress r.content <;>
                (simp [ho, hc, ha, extractStep, extractFold_addresses,
                  addressStep_addresses] <;> (ext a <;> simp <;> tauto))
          · simp [ho, hcn, hA, extractStep, extractFold_addresses]
      · simp [ho]

theorem processLine_hostAddrEdges (env : Env) (s : ProcState) (line : String) :
    (processLine env s line).graph.hostAddrEdges =
      s.graph.hostAddrEdges ∪ lineHAE env line := by
  unfold processLine lineHAE
  cases hp : parseEntry line with
  | none => simp
  | some r =>
    cases hl : lookupRecordType r.typeStr with
    | none => simp [hl]
    | some rt =>
      simp only [hl]
      by_cases ho : env.validHostName r.ownerName
      · by_cases hcn : rt = DnsResourceRecordType.cname ∧ r.content ≠ ""
        · obtain ⟨hrt, hc⟩ := hcn
          subst hrt
          by_cases ht : env.validHostName r.content <;>
            simp [ho, hc, ht, cnameStep, addressStep_hostAddrEdges]
        · by_cases hA : (rt = DnsResourceRecordType.a ∨
              rt = DnsResourceRecordType.aaaa) ∧ r.content ≠ ""
          · obtain ⟨hd, hc⟩ := hA
            rcases hd with h | h <;> subst h <;>
              by_cases ha : env.validAddress r.content <;>
                (simp [ho, hc, ha, extractStep, extractFold_hostAddrEdges,
                  addressStep_hostAddrEdges] <;> (ext a <;> simp <;> tauto))
          · simp [ho, hcn, hA, extractStep, extractFold_hostAddrEdges]
      · simp [ho]

theorem processLine_aliasEdges (env : Env) (s : ProcState) (line : String) :
    (processLine env s line).graph.aliasEdges =
      s.graph.aliasEdges ∪ lineAlias env line := by
  unfold processLine lineAlias
  cases hp : parseEntry line with
  | none => simp
  | some r =>
    cases hl : lookupRecordType r.typeStr with
    | none => simp [hl]
    | some rt =>
      simp only [hl]
      by_cases ho : env.validHostName r.ownerName
      · by_cases hcn : rt = DnsResourceRecordType.cname ∧ r.content ≠ ""
        · obtain ⟨hrt, hc⟩ := hcn
          subst hrt
          by_cases ht : env.validHostName r.content <;>
            (simp [ho, hc, ht, cnameStep, addressStep_aliasEdges] <;>
              (ext a <;> simp <;> tauto))
        · by_cases hA : (rt = DnsResourceRecordType.a ∨
              rt = DnsResourceRecordType.aaaa) ∧ r.content ≠ ""
          · obtain ⟨hd, hc⟩ := hA
            rcases hd with h | h <;> subst h <;>
              (simp [ho, hc, extractStep, extractFold_aliasEdges,
                addressStep_aliasEdges])
          · simp [ho, hcn, hA, extractStep, extractFold_aliasEdges]
      · simp [ho]

theorem blobOf_cons [DecidableEq α] (f : String → Finset α) (l : String)
    (ls : List String) : blobOf f (l :: ls) = f l ∪ blobOf f ls := rfl

theorem mem_blobOf_subset [DecidableEq α] (f : String → Finset α) :
    ∀ (ls : List String) (l : String), l ∈ ls → f l ⊆ blobOf f ls
  | [], l, h => absurd h (List.not_mem_nil l)
  | x :: ls, l, h => by
    rcases List.mem_cons.mp h with h | h
    · subst h
      rw [blobOf_cons]
      exact Finset.subset_union_left
    · rw [blobOf_cons]
      exact (mem_blobOf_subset f ls l h).trans Finset.subset_union_right

theorem processLines_hostNames (env : Env) :
    ∀ (ls : List String) (s : ProcState),
      (processLines env s ls).graph.hostNames =
        s.graph.hostNames ∪ blobOf (lineHN env) ls
  | [], s => by simp [processLines, blobOf]
  | l :: ls, s => by
    have ih := processLines_hostNames env ls (processLine env s l)
    simp only [processLines, List.foldl_cons] at ih ⊢
    rw [ih, processLine_hostNames, blobOf_cons, Finset.union_assoc]

theorem processLines_addresses (env : Env) :
    ∀ (ls : List String) (s : ProcState),
      (processLines env s ls).graph.addresses =
        s.graph.addresses ∪ blobOf (lineAddr env) ls
  | [], s => by simp [processLines, blobOf]
  | l :: ls, s => by
    have ih := processLines_addresses env ls (processLine env s l)
    simp only [processLines, List.foldl_cons] at ih ⊢
    rw [ih, processLine_addresses, blobOf_cons, Finset.union_assoc]

theorem processLines_hostAddrEdges (env : Env) :
    ∀ (ls : List String) (s : ProcState),
      (processLines env s ls).graph.hostAddrEdges =
        s.graph.hostAddrEdges ∪ blobOf (lineHAE env) ls
  | [], s => by simp [processLines, blobOf]
  | l :: ls, s => by
    have ih := processLines_hostAddrEdges env ls (processLine env s l)
    simp only [processLines, List.foldl_cons] at ih ⊢
    rw [ih, processLine_hostAddrEdges, blobOf_cons, Finset.union_assoc]

theorem processLines_aliasEdges (env : Env) :
    ∀ (ls : List String) (s : ProcState),
      (processLines env s ls).graph.aliasEdges =
        s.graph.aliasEdges ∪ blobOf (lineAlias env) ls
  | [], s => by simp [processLines, blobOf]
  | l :: ls, s => by
    have ih := processLines_aliasEdges env ls (processLine env s l)
    simp only [processLines, List.foldl_cons] at ih ⊢
    rw [ih, processLine_aliasEdges, blobOf_cons, Finset.union_assoc]

/-- Two graphs with equal components are equal. -/
theorem Graph.ext_components {g1 g2 : Graph}
    (h1 : g1.hostNames = g2.hostNames) (h2 : g1.addresses = g2.addresses)
    (h3 : g1.hostAddrEdges = g2.hostAddrEdges)
    (h4 : g1.aliasEdges = g2.aliasEdges) : g1 = g2 := by
  cases g1; cases g2; simp_all

/-- Claim C1, counterexample: for the line `www.example.com. 3600 IN FOO
data` (unknown record-type token `FOO`) with an environment that accepts
every owner, processing emits the `KeyError` diagnostic but does NOT
create the owner host name: the enum lookup
`DnsResourceRecordType[record_type_str]` precedes the owner
`add_host_name` call, so the `KeyError` aborts the whole line. -/
theorem c1_counterexample :
    (processLine envAll emptyState "www.example.com. 3600 IN FOO data").graph
      = emptyGraph ∧
    (processLine envAll emptyState "www.example.com. 3600 IN FOO data").diags
      = [Diag.keyError "foo"] := by
  constructor <;> rfl

/-- Claim C1 (amended): for every input line that parses successfully but
whose record-type token is not in the supported enumeration, processing
emits exactly one diagnostic and performs NO graph mutation at all — in
particular the owner HostNameNode is not created, because the type lookup
raises `KeyError` before owner resolution. -/
theorem c1_unknown_type (env : Env) (s : ProcState) (line : String)
    (r : DnsRecord) (hp : parseEntry line = some r)
    (hl : lookupRecordType r.typeStr = none) :
    processLine env s line =
      { s with diags := s.diags ++ [Diag.keyError r.typeStr] } := by
  simp [processLine, hp, hl]

/-- Witness for the amended C1 theorem at a concrete unknown-type line. -/
theorem c1_witness :
    processLine envAll emptyState "www.example.com. 3600 IN FOO data" =
      { emptyState with
          diags := emptyState.diags ++
            [Diag.keyError
              (DnsRecord.typeStr
                { ownerName := "www.example.com", typeStr := "foo",
                  content := "data" })] } :=
  c1_unknown_type envAll emptyState "www.example.com. 3600 IN FOO data"
    { ownerName := "www.example.com", typeStr := "foo", content := "data" }
    (by decide) (by decide)

/-- Claim C2, counterexample: processing the valid A record
`www.example.com. 3600 IN A 10.0.0.5` DOES invoke the free-text
domain-substring extraction path on the record's content — the `else` of
`if record_type == cname and content` fires for A/AAAA records too — and
an extracted candidate becomes a host-name node. This refutes the claim
that the extraction path runs only for recognized types other than A,
AAAA and CNAME. -/
theorem c2_counterexample :
    (processLine envExtractA emptyState
      "www.example.com. 3600 IN A 10.0.0.5").extractLog = ["10.0.0.5"] ∧
    "ex.example.com" ∈ (processLine envExtractA emptyState
      "www.example.com. 3600 IN A 10.0.0.5").graph.hostNames := by
  constructor
  · rfl
  · decide

/-- Claim C2 (amended): for every parsed A or AAAA record with a valid
owner and a valid non-empty address literal, exactly one HostToAddress
edge of that record's type is created (or fetched) between the owner and
the address — but the free-text extraction path IS additionally invoked
on that record's content (it runs for every recognized type except a
CNAME with non-empty content). -/
theorem c2_a_aaaa_edge (env : Env) (s : ProcState) (line : String)
    (r : DnsRecord) (rt : DnsResourceRecordType)
    (hp : parseEntry line = some r)
    (hl : lookupRecordType r.typeStr = some rt)
    (hrt : rt = DnsResourceRecordType.a ∨ rt = DnsResourceRecordType.aaaa)
    (hc : r.content ≠ "") (ho : env.validHostName r.ownerName = true)
    (ha : env.validAddress r.content = true) :
    (processLine env s line).graph.hostAddrEdges =
      insert (r.ownerName, r.content, rt) s.graph.hostAddrEdges ∧
    (processLine env s line).graph.addresses =
      insert r.content s.graph.addresses ∧
    (processLine env s line).extractLog = s.extractLog ++ [r.content] := by
  rcases hrt with h | h <;> subst h <;>
    simp [processLine, hp, hl, ho, hc, ha, addressStep, extractStep,
      extractFold_hostAddrEdges, extractFold_addresses,
      extractFold_extractLog]

/-- Witness for the amended C2 theorem at a concrete A record. -/
theorem c2_witness :
    (processLine envAll emptyState
      "www.example.com. 3600 IN A 10.0.0.5").graph.hostAddrEdges =
      insert ("www.example.com", "10.0.0.5", DnsResourceRecordType.a)
        emptyState.graph.hostAddrEdges ∧
    (processLine envAll emptyState
      "www.example.com. 3600 IN A 10.0.0.5").graph.addresses =
      insert "10.0.0.5" emptyState.graph.addresses ∧
    (processLine envAll emptyState
      "www.example.com. 3600 IN A 10.0.0.5").extractLog =
      emptyState.extractLog ++ ["10.0.0.5"] :=
  c2_a_aaaa_edge envAll emptyState "www.example.com. 3600 IN A 10.0.0.5"
    { ownerName := "www.example.com", typeStr := "a", content := "10.0.0.5" }
    DnsResourceRecordType.a (by decide) (by decide) (Or.inl rfl) (by decide)
    (by decide) (by decide)

/-- Claim C3, counterexample: the unparseable line `garbage line with no
structure` causes no graph mutation, but it also emits NO diagnostic — the
loop has no `else` branch for a failed regex match — refuting the claim
that exactly one debug-level diagnostic is emitted. -/
theorem c3_counterexample :
    processLine envAll emptyState "garbage line with no structure" =
      emptyState ∧
    (processLine envAll emptyState
      "garbage line with no structure").diags.length = 0 := by
  constructor <;> rfl

/-- Claim C3 (amended): for every input line that does not match the
resource-record grammar, processing performs no graph mutation and emits
no diagnostic at all — the line is silently skipped. -/
theorem c3_unparseable_skipped (env : Env) (s : ProcState) (line : String)
    (hp : parseEntry line = none) : processLine env s line = s := by
  simp [processLine, hp]

/-- Witness for the amended C3 theorem at a concrete unparseable line. -/
theorem c3_witness :
    processLine envAll emptyState "garbage line with no structure" =
      emptyState :=
  c3_unparseable_skipped envAll emptyState "garbage line with no structure"
    (by decide)

/-- Claim C4: a record classified as CNAME with non-empty content and a
valid owner never triggers the free-text extraction path — whether the
target validates (a directed alias edge is created) or not (only a
diagnostic, no alias edge, no extraction). -/
theorem c4_cname_exclusive (env : Env) (s : ProcState) (line : String)
    (r : DnsRecord) (hp : parseEntry line = some r)
    (hl : lookupRecordType r.typeStr = some DnsResourceRecordType.cname)
    (hc : r.content ≠ "") (ho : env.validHostName r.ownerName = true) :
    (processLine env s line).extractLog = s.extractLog ∧
    (env.validHostName r.content = true →
      (processLine env s line).graph.aliasEdges =
        insert (r.ownerName, r.content) s.graph.aliasEdges) ∧
    (env.validHostName r.content = false →
      (processLine env s line).graph.aliasEdges = s.graph.aliasEdges ∧
      Diag.invalidDomain line ∈ (processLine env s line).diags) := by
  by_cases ht : env.validHostName r.content <;>
    simp [processLine, hp, hl, ho, hc, ht, cnameStep]

/-- Witness for C4 at a concrete CNAME record. -/
theorem c4_witness :
    (processLine envAll emptyState
      "alias.example.com. 3600 IN CNAME canonical.example.com.").extractLog =
      emptyState.extractLog ∧
    (envAll.validHostName "canonical.example.com" = true →
      (processLine envAll emptyState
        "alias.example.com. 3600 IN CNAME canonical.example.com.").graph.aliasEdges =
        insert ("alias.example.com", "canonical.example.com")
          emptyState.graph.aliasEdges) ∧
    (envAll.validHostName "canonical.example.com" = false →
      (processLine envAll emptyState
        "alias.example.com. 3600 IN CNAME canonical.example.com.").graph.aliasEdges =
        emptyState.graph.aliasEdges ∧
      Diag.invalidDomain "alias.example.com. 3600 IN CNAME canonical.example.com."
        ∈ (processLine envAll emptyState
            "alias.example.com. 3600 IN CNAME canonical.example.com.").diags) :=
  c4_cname_exclusive envAll emptyState
    "alias.example.com. 3600 IN CNAME canonical.example.com."
    { ownerName := "alias.example.com", typeStr := "cname",
      content := "canonical.example.com" }
    (by decide) (by decide) (by decide) (by decide)

/-- Claim C5: merging the same output blob twice produces the same graph
as merging it once, for every environment and initial state — the store
operations are create-or-fetch by identity, so every per-line contribution
is already present after the first pass. -/
theorem c5_idempotent (env : Env) (s : ProcState) (ls : List String) :
    (processLines env (processLines env s ls) ls).graph =
      (processLines env s ls).graph := by
  apply Graph.ext_components <;>
    simp [processLines_hostNames, processLines_addresses,
      processLines_hostAddrEdges, processLines_aliasEdges,
      Finset.union_assoc, Finset.union_self]

/-- Claim C6: an A/AAAA record with a valid owner and an invalid address
literal still creates (or fetches) the owner host-name node, stores no
address node, creates no HostToAddress edge, and emits the invalid-IP
diagnostic. -/
theorem c6_invalid_address (env : Env) (s : ProcState) (line : String)
    (r : DnsRecord) (rt : DnsResourceRecordType)
    (hp : parseEntry line = some r)
    (hl : lookupRecordType r.typeStr = some rt)
    (hrt : rt = DnsResourceRecordType.a ∨ rt = DnsResourceRecordType.aaaa)
    (hc : r.content ≠ "") (ho : env.validHostName r.ownerName = true)
    (ha : env.validAddress r.content = false) :
    r.ownerName ∈ (processLine env s line).graph.hostNames ∧
    (processLine env s line).graph.addresses = s.graph.addresses ∧
    (processLine env s line).graph.hostAddrEdges = s.graph.hostAddrEdges ∧
    Diag.invalidIP line ∈ (processLine env s line).diags := by
  have hred : processLine env s line =
      extractStep env line r.content
        { s with
            graph :=
              { s.graph with
                  hostNames := insert r.ownerName s.graph.hostNames }
            diags := s.diags ++ [Diag.invalidIP line] } := by
    rcases hrt with h | h <;> subst h <;>
      simp [processLine, hp, hl, ho, hc, ha, addressStep]
  rw [hred]
  refine ⟨?_, ?_, ?_, ?_⟩
  · simp [extractStep, extractFold_hostNames]
  · simp [extractStep, extractFold_addresses]
  · simp [extractStep, extractFold_hostAddrEdges]
  · simp only [extractStep]
    apply extractFold_diags_mono
    simp

/-- Witness for C6 at a concrete A record whose address the store
rejects. -/
theorem c6_witness :
    "www.example.com" ∈ (processLine envNoAddr emptyState
      "www.example.com. 3600 IN A 10.0.0.5").graph.hostNames ∧
    (processLine envNoAddr emptyState
      "www.example.com. 3600 IN A 10.0.0.5").graph.addresses =
      emptyState.graph.addresses ∧
    (processLine envNoAddr emptyState
      "www.example.com. 3600 IN A 10.0.0.5").graph.hostAddrEdges =
      emptyState.graph.hostAddrEdges ∧
    Diag.invalidIP "www.example.com. 3600 IN A 10.0.0.5" ∈
      (processLine envNoAddr emptyState
        "www.example.com. 3600 IN A 10.0.0.5").diags :=
  c6_invalid_address envNoAddr emptyState
    "www.example.com. 3600 IN A 10.0.0.5"
    { ownerName := "www.example.com", typeStr := "a", content := "10.0.0.5" }
    DnsResourceRecordType.a (by decide) (by decide) (Or.inl rfl) (by decide)
    (by decide) (by decide)

/-- Claim C7, counterexample: for the line `h.example.com. 3600 IN A .`
(content empty after trimming), the free-text extraction path IS invoked
on the empty content — the `else` of the CNAME conditional does not test
content — and an extractor that returns a candidate for the empty string
creates an additional host-name node. This refutes "no free-text domain
extraction is carried out". -/
theorem c7_counterexample :
    (processLine envExtractAlways emptyState
      "h.example.com. 3600 IN A .").extractLog = [""] ∧
    "x.example.com" ∈ (processLine envExtractAlways emptyState
      "h.example.com. 3600 IN A .").graph.hostNames := by
  constructor
  · rfl
  · decide

/-- Claim C7 (amended): for every parsed record of a recognized type whose
content is empty after trimming and whose owner validates, no address step
and no alias step is performed, but the extraction path is still invoked
(on the empty content). -/
theorem c7_empty_content (env : Env) (s : ProcState) (line : String)
    (r : DnsRecord) (rt : DnsResourceRecordType)
    (hp : parseEntry line = some r)
    (hl : lookupRecordType r.typeStr = some rt) (hc : r.content = "")
    (ho : env.validHostName r.ownerName = true) :
    (processLine env s line).graph.addresses = s.graph.addresses ∧
    (processLine env s line).graph.hostAddrEdges = s.graph.hostAddrEdges ∧
    (processLine env s line).graph.aliasEdges = s.graph.aliasEdges ∧
    (processLine env s line).extractLog = s.extractLog ++ [r.content] := by
  simp [processLine, hp, hl, ho, hc, extractStep, extractFold_addresses,
    extractFold_hostAddrEdges, extractFold_aliasEdges,
    extractFold_extractLog]

/-- Witness for the amended C7 theorem at a concrete empty-content
record. -/
theorem c7_witness :
    (processLine envAll emptyState
      "h.example.com. 3600 IN A .").graph.addresses =
      emptyState.graph.addresses ∧
    (processLine envAll emptyState
      "h.example.com. 3600 IN A .").graph.hostAddrEdges =
      emptyState.graph.hostAddrEdges ∧
    (processLine envAll emptyState
      "h.example.com. 3600 IN A .").graph.aliasEdges =
      emptyState.graph.aliasEdges ∧
    (processLine envAll emptyState
      "h.example.com. 3600 IN A .").extractLog =
      emptyState.extractLog ++
        [DnsRecord.content
          { ownerName := "h.example.com", typeStr := "a", content := "" }] :=
  c7_empty_content envAll emptyState "h.example.com. 3600 IN A ."
    { ownerName := "h.example.com", typeStr := "a", content := "" }
    DnsResourceRecordType.a (by decide) (by decide) (by decide) (by decide)

/-- Claim C8: per-line failures never prevent other lines from being
processed — whatever the rest of the blob contains (unparseable lines,
unknown types, invalid owners, addresses or CNAME targets), every line's
full graph contribution is present in the final graph. -/
theorem c8_failures_isolated (env : Env) (s : ProcState) (ls : List String)
    (l : String) (h : l ∈ ls) :
    lineHN env l ⊆ (processLines env s ls).graph.hostNames ∧
    lineAddr env l ⊆ (processLines env s ls).graph.addresses ∧
    lineHAE env l ⊆ (processLines env s ls).graph.hostAddrEdges ∧
    lineAlias env l ⊆ (processLines env s ls).graph.aliasEdges := by
  refine ⟨?_, ?_, ?_, ?_⟩
  · rw [processLines_hostNames]
    exact (mem_blobOf_subset (lineHN env) ls l h).trans
      Finset.subset_union_right
  · rw [processLines_addresses]
    exact (mem_blobOf_subset (lineAddr env) ls l h).trans
      Finset.subset_union_right
  · rw [processLines_hostAddrEdges]
    exact (mem_blobOf_subset (lineHAE env) ls l h).trans
      Finset.subset_union_right
  · rw [processLines_aliasEdges]
    exact (mem_blobOf_subset (lineAlias env) ls l h).trans
      Finset.subset_union_right

/-- Witness for C8: a valid A record preceded by an unparseable line and
an unknown-type line still contributes its full delta. -/
theorem c8_witness :
    lineHN envAll "www2.example.com. 3600 IN A 10.0.0.5" ⊆
      (processLines envAll emptyState
        ["garbage line with no structure",
         "bad.example.com. 3600 IN BOGUS x",
         "www2.example.com. 3600 IN A 10.0.0.5"]).graph.hostNames ∧
    lineAddr envAll "www2.example.com. 3600 IN A 10.0.0.5" ⊆
      (processLines envAll emptyState
        ["garbage line with no structure",
         "bad.example.com. 3600 IN BOGUS x",
         "www2.example.com. 3600 IN A 10.0.0.5"]).graph.addresses ∧
    lineHAE envAll "www2.example.com. 3600 IN A 10.0.0.5" ⊆
      (processLines envAll emptyState
        ["garbage line with no structure",
         "bad.example.com. 3600 IN BOGUS x",
         "www2.example.com. 3600 IN A 10.0.0.5"]).graph.hostAddrEdges ∧
    lineAlias envAll "www2.example.com. 3600 IN A 10.0.0.5" ⊆
      (processLines envAll emptyState
        ["garbage line with no structure",
         "bad.example.com. 3600 IN BOGUS x",
         "www2.example.com. 3600 IN A 10.0.0.5"]).graph.aliasEdges :=
  c8_failures_isolated envAll emptyState
    ["garbage line with no structure",
     "bad.example.com. 3600 IN BOGUS x",
     "www2.example.com. 3600 IN A 10.0.0.5"]
    "www2.example.com. 3600 IN A 10.0.0.5" (by simp)

/-- Claim C9: a parsed record of a recognized type whose owner name fails
validation produces exactly one diagnostic and no graph mutation of any
kind. -/
theorem c9_invalid_owner (env : Env) (s : ProcState) (line : String)
    (r : DnsRecord) (rt : DnsResourceRecordType)
    (hp : parseEntry line = some r)
    (hl : lookupRecordType r.typeStr = some rt)
    (ho : env.validHostName r.ownerName = false) :
    processLine env s line =
      { s with diags := s.diags ++ [Diag.invalidDomain line] } := by
  simp [processLine, hp, hl, ho]

/-- Witness for C9 with a store that rejects every owner name. -/
theorem c9_witness :
    processLine envNoOwner emptyState "www.example.com. 3600 IN A 10.0.0.5" =
      { emptyState with
          diags := emptyState.diags ++
            [Diag.invalidDomain "www.example.com. 3600 IN A 10.0.0.5"] } :=
  c9_invalid_owner envNoOwner emptyState
    "www.example.com. 3600 IN A 10.0.0.5"
    { ownerName := "www.example.com", typeStr := "a", content := "10.0.0.5" }
    DnsResourceRecordType.a (by decide) (by decide) (by decide)

/-- Claim C10: the extracted owner name and content are stripped of `.`
and space characters at both ends, not only the trailing end: an owner
group of `.www.example.com` or ` www.example.com` normalizes to
`www.example.com` exactly as `www.example.com.` does, and a content group
of `.some.text.` or `some.text. ` normalizes to `some.text`. -/
theorem c10_strip_both_ends :
    (parseEntry ".www.example.com. 3600 IN A 10.0.0.5").map
      DnsRecord.ownerName = some "www.example.com" ∧
    (parseEntry " www.example.com. 3600 IN A 10.0.0.5").map
      DnsRecord.ownerName = some "www.example.com" ∧
    (parseEntry "www.example.com. 3600 IN A 10.0.0.5").map
      DnsRecord.ownerName = some "www.example.com" ∧
    (parseEntry "www.example.com. 3600 IN TXT .some.text.").map
      DnsRecord.content = some "some.text" ∧
    (parseEntry "www.example.com. 3600 IN TXT some.text. ").map
      DnsRecord.content = some "some.text" := by
  refine ⟨?_, ?_, ?_, ?_, ?_⟩ <;> rfl

end DnsAxfr
